import Mathlib

/-!
Shallow embedding of the `unixism` repository (two Rust parsers:
`src/dns/resolv.rs` for resolver configuration and `src/hosts/mod.rs` for
the hosts file), together with theorems settling the frozen claims about it.

Strings are embedded as `List Char`; the Rust standard-library primitives the
source calls (`str::split`, `str::split_once`, `str::split_whitespace`,
`str::trim`, `str::starts_with`, `IpAddr::from_str`, `usize::from_str`) are
translated here from their documented behaviour in the Rust standard library,
and every function of the repository itself is translated line by line from
the source files.
-/

namespace Unixism

/-- Strings of the embedding: a Rust `&str` is a sequence of characters. -/
abbrev Str := List Char

/-- Coerce a Lean string literal into the embedding's string type. -/
def str (s : String) : Str := s.data

/-- Rust `char::is_whitespace`: the Unicode `White_Space` property. -/
def isWSpace (c : Char) : Bool :=
  (c = ' ') || (c = '\t') || (c = '\n') || (c = '\x0b') || (c = '\x0c') ||
  (c = '\r') || (c = '\u0085') || (c = '\u00A0') || (c = '\u1680') ||
  (('\u2000' ≤ c) && (c ≤ '\u200A')) || (c = '\u2028') || (c = '\u2029') ||
  (c = '\u202F') || (c = '\u205F') || (c = '\u3000')

/-- Rust `str::trim`: remove leading and trailing whitespace. -/
def trim (s : Str) : Str :=
  ((s.dropWhile isWSpace).reverse.dropWhile isWSpace).reverse

/-- Splitting worker: accumulate the current fragment (reversed) and emit it
at each separator position. -/
def splitByAux (p : Char → Bool) : Str → Str → List Str
  | [], acc => [acc.reverse]
  | c :: cs, acc =>
    if p c then acc.reverse :: splitByAux p cs []
    else splitByAux p cs (c :: acc)

/-- Split a string at every character satisfying `p`, keeping empty
fragments (the behaviour of Rust `str::split` with a char-class pattern). -/
def splitBy (p : Char → Bool) (s : Str) : List Str := splitByAux p s []

/-- Rust `str::split` with a single-character pattern. -/
def splitChar (sep : Char) (s : Str) : List Str := splitBy (fun c => c == sep) s

/-- Rust `str::split_whitespace`: split on runs of whitespace, yielding no
empty fragments. -/
def splitWhitespace (s : Str) : List Str :=
  (splitBy isWSpace s).filter (fun t => !t.isEmpty)

/-- Rust `str::split_once`: split at the first occurrence of `pat`,
returning the text before and after it. -/
def splitOnce (pat : Str) : Str → Option (Str × Str)
  | [] => if pat.isEmpty then some ([], []) else none
  | c :: cs =>
    if pat.isPrefixOf (c :: cs) then some ([], (c :: cs).drop pat.length)
    else
      match splitOnce pat cs with
      | some (a, b) => some (c :: a, b)
      | none => none

/-- `s.split_once(kw).unwrap_or_default().1`, the idiom the source uses to
strip a recognized directive keyword from the front of a line. -/
def afterKeyword (kw : Str) (s : Str) : Str := ((splitOnce kw s).getD ([], [])).2

/-! ### Rust standard library: `IpAddr::from_str` (core::net::parser) -/

/-- Rust `char::to_digit`. -/
def toDigit (radix : Nat) (c : Char) : Option Nat :=
  let d :=
    if '0' ≤ c ∧ c ≤ '9' then some (c.toNat - '0'.toNat)
    else if 'a' ≤ c ∧ c ≤ 'z' then some (c.toNat - 'a'.toNat + 10)
    else if 'A' ≤ c ∧ c ≤ 'Z' then some (c.toNat - 'A'.toNat + 10)
    else none
  match d with
  | some v => if v < radix then some v else none
  | none => none

/-- Consume one expected character (`Parser::read_given_char`). -/
def expectChar (c : Char) : Str → Option Str
  | d :: rest => if d = c then some rest else none
  | [] => none

/-- `Parser::read_number`: read the maximal run of digits in `radix`; fail on
no digits, on more than `maxDigits` digits, on overflow past `maxVal`
(the checked arithmetic of the machine-integer target type), or on a
forbidden leading zero. -/
def readNumber (radix maxDigits : Nat) (allowZero : Bool) (maxVal : Nat)
    (s : Str) : Option (Nat × Str) :=
  let digs := s.takeWhile (fun c => (toDigit radix c).isSome)
  let rest := s.dropWhile (fun c => (toDigit radix c).isSome)
  if digs.isEmpty then none
  else if maxDigits < digs.length then none
  else
    let v := digs.foldl (fun acc c => acc * radix + (toDigit radix c).getD 0) 0
    if maxVal < v then none
    else if !allowZero && (digs.headD ' ' == '0') && decide (1 < digs.length) then none
    else some (v, rest)

/-- `Parser::read_ipv4_addr`: four octets (decimal, at most 3 digits, no
leading zeros, value at most 255) separated by dots. -/
def readIpv4 (s : Str) : Option ((Nat × Nat × Nat × Nat) × Str) := do
  let (a, s1) ← readNumber 10 3 false 255 s
  let s1b ← expectChar '.' s1
  let (b, s2) ← readNumber 10 3 false 255 s1b
  let s2b ← expectChar '.' s2
  let (c, s3) ← readNumber 10 3 false 255 s2b
  let s3b ← expectChar '.' s3
  let (d, s4) ← readNumber 10 3 false 255 s3b
  some ((a, b, c, d), s4)

/-- `Parser::read_separator`: require the separator before every element but
the first. -/
def readSeparator (sep : Char) (i : Nat) (inner : Str → Option (α × Str))
    (s : Str) : Option (α × Str) :=
  if i = 0 then inner s
  else
    match expectChar sep s with
    | some rest => inner rest
    | none => none

/-- `read_groups` of `Parser::read_ipv6_addr`: read up to `rem` further
colon-separated 16-bit hex groups starting at position `i`; when at least two
slots remain, first try a trailing embedded IPv4 address, which fills two
groups and ends the run. Returns the groups read, whether an embedded IPv4
address ended the run, and the remaining input. -/
def readGroupsAux : Nat → Nat → Str → (List Nat × Bool × Str)
  | 0, _, s => ([], false, s)
  | rem + 1, i, s =>
    let v4try : Option (List Nat × Bool × Str) :=
      if 1 ≤ rem then
        match readSeparator ':' i readIpv4 s with
        | some ((a, b, c, d), s1) => some ([a * 256 + b, c * 256 + d], true, s1)
        | none => none
      else none
    match v4try with
    | some r => r
    | none =>
      match readSeparator ':' i (readNumber 16 4 true 65535) s with
      | some (g, s1) =>
        let r := readGroupsAux rem (i + 1) s1
        (g :: r.1, r.2.1, r.2.2)
      | none => ([], false, s)

/-- Read up to `limit` IPv6 groups from the start of a run. -/
def readGroups (limit : Nat) (s : Str) : (List Nat × Bool × Str) :=
  readGroupsAux limit 0 s

/-- `Parser::read_ipv6_addr`: a head run of groups; if it has all 8 groups
the address is complete, otherwise (no embedded IPv4 in the head) a `::`
followed by a tail run, with zero groups filling the gap. -/
def readIpv6 (s : Str) : Option (List Nat × Str) :=
  let h := readGroups 8 s
  if h.1.length = 8 then some (h.1, h.2.2)
  else if h.2.1 then none
  else
    match expectChar ':' h.2.2 with
    | none => none
    | some s1 =>
      match expectChar ':' s1 with
      | none => none
      | some s2 =>
        let limit := 8 - (h.1.length + 1)
        let t := readGroups limit s2
        some (h.1 ++ List.replicate (8 - h.1.length - t.1.length) 0 ++ t.1, t.2.2)

/-- Rust `std::net::IpAddr`. -/
inductive IpAddr where
  | v4 (a b c d : Nat)
  | v6 (groups : List Nat)
  deriving DecidableEq, Repr

/-- Rust `IpAddr::from_str`: try IPv4 first, otherwise IPv6, and require the
whole input to be consumed (`Parser::parse_with`). `none` plays the role of
`AddrParseError`. -/
def parseIpAddr (s : Str) : Option IpAddr :=
  match readIpv4 s with
  | some ((a, b, c, d), rest) => if rest.isEmpty then some (.v4 a b c d) else none
  | none =>
    match readIpv6 s with
    | some (gs, rest) => if rest.isEmpty then some (.v6 gs) else none
    | none => none

/-! ### Rust standard library: `usize::from_str` -/

/-- The error kinds of Rust `core::num::ParseIntError` reachable from
unsigned decimal parsing. -/
inductive IntErrorKind where
  | Empty
  | InvalidDigit
  | PosOverflow
  deriving DecidableEq, Repr

/-- `usize::MAX` on a 64-bit target. -/
def USIZE_MAX : Nat := 18446744073709551615

/-- Digit loop of `from_str_radix` for `usize`: left to right, failing on the
first non-digit and on checked-arithmetic overflow. -/
def parseUsizeDigits : Nat → Str → Except IntErrorKind Nat
  | acc, [] => .ok acc
  | acc, c :: cs =>
    match toDigit 10 c with
    | none => .error .InvalidDigit
    | some d =>
      if USIZE_MAX < acc * 10 then .error .PosOverflow
      else if USIZE_MAX < acc * 10 + d then .error .PosOverflow
      else parseUsizeDigits (acc * 10 + d) cs

/-- Rust `usize::from_str`: empty input is `Empty`; a leading `+` is allowed
when followed by digits; a `-` (or any other non-digit) is `InvalidDigit`. -/
def parseUsize : Str → Except IntErrorKind Nat
  | [] => .error .Empty
  | '+' :: rest => if rest.isEmpty then .error .InvalidDigit else parseUsizeDigits 0 rest
  | s => parseUsizeDigits 0 s

/-! ### Shared plumbing of both parsers -/

instance [DecidableEq ε] [DecidableEq α] : DecidableEq (Except ε α) := fun x y =>
  match x, y with
  | .error a, .error b =>
    if h : a = b then .isTrue (by rw [h]) else .isFalse (by simp [h])
  | .ok a, .ok b =>
    if h : a = b then .isTrue (by rw [h]) else .isFalse (by simp [h])
  | .error _, .ok _ => .isFalse (by simp)
  | .ok _, .error _ => .isFalse (by simp)

/-- `true` on `Except.error`, mirroring `Result::is_err`. -/
def isErr : Except ε α → Bool
  | .error _ => true
  | .ok _ => false

/-- `Iterator::collect::<Result<Vec<_>, _>>()`: collect the results in order,
stopping at (and returning) the first error. -/
def collectResults (f : α → Except ε β) : List α → Except ε (List β)
  | [] => .ok []
  | x :: xs =>
    match f x with
    | .error e => .error e
    | .ok y =>
      match collectResults f xs with
      | .error e => .error e
      | .ok ys => .ok (y :: ys)

/-- `BufRead::lines().map(Result::unwrap_or_default)`: the input stream is a
sequence of line reads, each either a decoded line or a failure; a failed
read degrades to the empty line. -/
def decodeLines (stream : List (Option Str)) : List Str :=
  stream.map (fun r => r.getD [])

/-- The line filter shared by both parsers:
`!line.is_empty() && !line.starts_with("#") && !line.starts_with(" ")`. -/
def survives (line : Str) : Bool :=
  !line.isEmpty && !((str "#").isPrefixOf line) && !((str " ").isPrefixOf line)

/-- The surviving lines of a stream: decode, then filter. -/
def filteredLines (stream : List (Option Str)) : List Str :=
  (decodeLines stream).filter survives

/-- Order-preserving concatenation of per-item fragments. -/
def catMap (f : α → List β) : List α → List β
  | [] => []
  | x :: xs => f x ++ catMap f xs

/-! ### src/dns/resolv.rs -/

/-- `ParseConfigError` of `src/dns/resolv.rs`. `IPAddrParseError` wraps
Rust's payload-free `AddrParseError`. -/
inductive ParseConfigError where
  | UnknownOption (s : Str)
  | IPAddrParseError
  | ParseIntError (k : IntErrorKind)
  | IOError
  deriving DecidableEq, Repr

/-- `IPPair`: an address and an optional netmask. -/
structure IPPair where
  addr : IpAddr
  mask : Option IpAddr
  deriving DecidableEq, Repr

/-- `IPPair::from_str`: split on `/`; the first fragment (empty if absent)
must be an IP address; if a second fragment exists it must be one too.
Fragments after the second are never requested from the iterator. -/
def IPPair.from_str (s : Str) : Except ParseConfigError IPPair :=
  let pair := splitChar '/' s
  match parseIpAddr (pair.headD []) with
  | none => .error .IPAddrParseError
  | some a =>
    match (pair.drop 1).head? with
    | some m =>
      match parseIpAddr m with
      | none => .error .IPAddrParseError
      | some b => .ok ⟨a, some b⟩
    | none => .ok ⟨a, none⟩

/-- `ConfigOption` of `src/dns/resolv.rs`. -/
inductive ConfigOption where
  | DEBUG
  | NDots (n : Nat)
  | Timeout (n : Nat)
  | Attempts (n : Nat)
  | ROTATE
  | NOAAAA
  | NOCHECKNAME
  | INET6
  | IP6BSTRING
  | IP6DOTINT
  | NOIP6DOTINT
  | EDNS0
  | SNGLKUP
  | SNGLKUPREOP
  | NOTLDQUERY
  | USEVC
  | NORELOAD
  | TRUSTAD
  deriving DecidableEq, Repr

/-- The match of `ConfigOption::from_str` on `pair.next().unwrap_or_default()`
(the text before the first `:`); `second` is the next fragment (the text
between the first and second `:`, empty if absent), consumed only by the
numeric options. -/
def ConfigOption.classify (first second : Str) : Except ParseConfigError ConfigOption :=
  if first = str "debug" then .ok .DEBUG
  else if first = str "rotate" then .ok .ROTATE
  else if first = str "no-aaaa" then .ok .NOAAAA
  else if first = str "no-check-names" then .ok .NOCHECKNAME
  else if first = str "inet6" then .ok .INET6
  else if first = str "ip6-bytestring" then .ok .IP6BSTRING
  else if first = str "ip6-dotint" then .ok .IP6DOTINT
  else if first = str "no-ip6-dotint" then .ok .NOIP6DOTINT
  else if first = str "edns0" then .ok .EDNS0
  else if first = str "single-request" then .ok .SNGLKUP
  else if first = str "single-request-reopen" then .ok .SNGLKUPREOP
  else if first = str "no-tld-query" then .ok .NOTLDQUERY
  else if first = str "use-vc" then .ok .USEVC
  else if first = str "no-reload" then .ok .NORELOAD
  else if first = str "trust-ad" then .ok .TRUSTAD
  else if first = str "ndots" then
    match parseUsize second with
    | .ok n => .ok (.NDots n)
    | .error k => .error (.ParseIntError k)
  else if first = str "timeout" then
    match parseUsize second with
    | .ok n => .ok (.Timeout n)
    | .error k => .error (.ParseIntError k)
  else if first = str "attempts" then
    match parseUsize second with
    | .ok n => .ok (.Attempts n)
    | .error k => .error (.ParseIntError k)
  else .error (.UnknownOption first)

/-- `ConfigOption::from_str`: split the token on `:` and classify by the
fragment before the first `:`. -/
def ConfigOption.from_str (s : Str) : Except ParseConfigError ConfigOption :=
  let pair := splitChar ':' s
  ConfigOption.classify (pair.headD []) ((pair.drop 1).headD [])

/-- `ConfigItem` of `src/dns/resolv.rs`. -/
inductive ConfigItem where
  | Nameserver (a : IpAddr)
  | Domain (d : Str)
  | SearchDomains (ds : List Str)
  | SortList (ps : List IPPair)
  | Options (os : List ConfigOption)
  deriving DecidableEq, Repr

/-- `ConfigItem::from_str`: classify a surviving line by raw string prefix,
in the source's arm order, and parse the remainder after the keyword. -/
def ConfigItem.from_str (s : Str) : Except ParseConfigError ConfigItem :=
  if (str "nameserver").isPrefixOf s then
    match parseIpAddr (trim (afterKeyword (str "nameserver") s)) with
    | some a => .ok (.Nameserver a)
    | none => .error .IPAddrParseError
  else if (str "domain").isPrefixOf s then
    .ok (.Domain (trim (afterKeyword (str "domain") s)))
  else if (str "search").isPrefixOf s then
    .ok (.SearchDomains (splitWhitespace (trim (afterKeyword (str "search") s))))
  else if (str "sortlist").isPrefixOf s then
    match collectResults IPPair.from_str
        (splitWhitespace (trim (afterKeyword (str "sortlist") s))) with
    | .ok ps => .ok (.SortList ps)
    | .error e => .error e
  else if (str "options").isPrefixOf s then
    match collectResults ConfigOption.from_str
        (splitWhitespace (trim (afterKeyword (str "options") s))) with
    | .ok os => .ok (.Options os)
    | .error e => .error e
  else .error (.UnknownOption s)

/-- `Config` of `src/dns/resolv.rs`. -/
structure Config where
  nameservers : List IpAddr := []
  search_domains : List Str := []
  sort_list : List IPPair := []
  options : List ConfigOption := []
  deriving DecidableEq, Repr

/-- The loop body of `Config::from_items`: push or extend the matching
sequence. -/
def Config.addItem (cfg : Config) (item : ConfigItem) : Config :=
  match item with
  | .Nameserver n => { cfg with nameservers := cfg.nameservers ++ [n] }
  | .SearchDomains ds => { cfg with search_domains := cfg.search_domains ++ ds }
  | .Domain d => { cfg with search_domains := cfg.search_domains ++ [d] }
  | .SortList ls => { cfg with sort_list := cfg.sort_list ++ ls }
  | .Options os => { cfg with options := cfg.options ++ os }

/-- `Config::from_items`: fold all items into a default `Config`. -/
def Config.from_items (items : List ConfigItem) : Config :=
  items.foldl Config.addItem {}

/-- `unixism::dns::resolv::parse`: decode the stream's lines, filter, parse
each surviving line into a `ConfigItem`, fold into a `Config`; the first
line error aborts the whole call. -/
def resolvParse (stream : List (Option Str)) : Except ParseConfigError Config :=
  match collectResults ConfigItem.from_str (filteredLines stream) with
  | .error e => .error e
  | .ok items => .ok (Config.from_items items)

/-! ### src/hosts/mod.rs -/

/-- `ParseHostsError` of `src/hosts/mod.rs`. -/
inductive ParseHostsError where
  | IPAddrParseError
  | IOError
  deriving DecidableEq, Repr

/-- `Host` of `src/hosts/mod.rs`. -/
structure Host where
  ip : IpAddr
  names : List Str
  deriving DecidableEq, Repr

/-- `Host::from_str`: trim, split on whitespace; the first token (empty if
the line has none) must parse as an IP address, the rest are the names. -/
def Host.from_str (s : Str) : Except ParseHostsError Host :=
  let toks := splitWhitespace (trim s)
  match parseIpAddr (toks.headD []) with
  | none => .error .IPAddrParseError
  | some a => .ok ⟨a, toks.tail⟩

/-- `unixism::hosts::parse`: same line discipline as the resolver parser;
the collected `Vec<Host>` is exposed to the caller as an iterator, embedded
here as the list itself. -/
def hostsParse (stream : List (Option Str)) : Except ParseHostsError (List Host) :=
  collectResults Host.from_str (filteredLines stream)

/-! ### Per-item fragments of `Config::from_items` -/

/-- Nameservers contributed by one `ConfigItem`. -/
def itemNameservers : ConfigItem → List IpAddr
  | .Nameserver n => [n]
  | _ => []

/-- Search domains contributed by one `ConfigItem`. -/
def itemSearchDomains : ConfigItem → List Str
  | .Domain d => [d]
  | .SearchDomains ds => ds
  | _ => []

/-- Sort-list entries contributed by one `ConfigItem`. -/
def itemSortList : ConfigItem → List IPPair
  | .SortList ls => ls
  | _ => []

/-- Options contributed by one `ConfigItem`. -/
def itemOptions : ConfigItem → List ConfigOption
  | .Options os => os
  | _ => []

/-! ### Sanity checks against the source's own unit tests -/

example : parseIpAddr (str "127.0.0.1") = some (.v4 127 0 0 1) := by decide

example : parseIpAddr (str "::1") = some (.v6 [0, 0, 0, 0, 0, 0, 0, 1]) := by decide

example : parseIpAddr (str "256.1.1.1") = none := by decide

example : parseIpAddr (str "fe00::0") = some (.v6 [0xfe00, 0, 0, 0, 0, 0, 0, 0]) := by decide

example : ConfigOption.from_str (str "ndots:3") = .ok (.NDots 3) := by decide

example : ConfigItem.from_str (str "nameserver 127.0.0.53") =
    .ok (.Nameserver (.v4 127 0 0 53)) := by decide

example :
    resolvParse [some (str "nameserver 127.0.0.53"), some (str "nameserver 127.0.0.52"),
      some (str "options edns0 trust-ad timeout:5 attempts:2 ndots:3 debug"),
      some (str "search . 127.0.0.1"),
      some (str "sortlist 130.155.160.0/255.255.240.0 130.155.0.0")] =
    .ok { nameservers := [.v4 127 0 0 53, .v4 127 0 0 52],
          search_domains := [str ".", str "127.0.0.1"],
          sort_list := [⟨.v4 130 155 160 0, some (.v4 255 255 240 0)⟩,
                        ⟨.v4 130 155 0 0, none⟩],
          options := [.EDNS0, .TRUSTAD, .Timeout 5, .Attempts 2, .NDots 3, .DEBUG] } := by
  decide

example :
    hostsParse [some [], some (str "127.0.0.1\tlocalhost"), some [],
      some (str "# The following lines are desirable for IPv6 capable hosts"),
      some (str "::1     ip6-localhost ip6-loopback"),
      some (str "fe00::0 ip6-localnet"),
      some (str "ff02::1 ip6-allnodes"),
      some (str "ff02::2 ip6-allrouters")] =
    .ok [⟨.v4 127 0 0 1, [str "localhost"]⟩,
         ⟨.v6 [0, 0, 0, 0, 0, 0, 0, 1], [str "ip6-localhost", str "ip6-loopback"]⟩,
         ⟨.v6 [0xfe00, 0, 0, 0, 0, 0, 0, 0], [str "ip6-localnet"]⟩,
         ⟨.v6 [0xff02, 0, 0, 0, 0, 0, 0, 1], [str "ip6-allnodes"]⟩,
         ⟨.v6 [0xff02, 0, 0, 0, 0, 0, 0, 2], [str "ip6-allrouters"]⟩] := by
  decide

/-! ### Helper lemmas -/

theorem splitByAux_none (p : Char → Bool) (s : Str) (h : ∀ c ∈ s, p c = false) :
    ∀ acc : Str, splitByAux p s acc = [acc.reverse ++ s] := by
  induction s with
  | nil => intro acc; simp [splitByAux]
  | cons c cs ih =>
    intro acc
    have hc : p c = false := h c (List.mem_cons_self c cs)
    rw [splitByAux, hc]
    simp only [Bool.false_eq_true, if_false]
    rw [ih (fun d hd => h d (List.mem_cons_of_mem c hd))]
    simp

theorem splitByAux_sep (p : Char → Bool) (s1 : Str) (c0 : Char) (s2 : Str)
    (h : ∀ c ∈ s1, p c = false) (hc : p c0 = true) :
    ∀ acc : Str, splitByAux p (s1 ++ c0 :: s2) acc = (acc.reverse ++ s1) :: splitBy p s2 := by
  induction s1 with
  | nil => intro acc; simp [splitByAux, splitBy, hc]
  | cons c cs ih =>
    intro acc
    have hcf : p c = false := h c (List.mem_cons_self c cs)
    rw [List.cons_append, splitByAux, hcf]
    simp only [Bool.false_eq_true, if_false]
    rw [ih (fun d hd => h d (List.mem_cons_of_mem c hd))]
    simp

theorem splitChar_no_sep (sep : Char) (s : Str) (h : sep ∉ s) : splitChar sep s = [s] := by
  exact splitByAux_none (fun c => c == sep) s
    (fun c hc => beq_eq_false_iff_ne.mpr (fun he => h (he ▸ hc))) []

theorem splitChar_append (sep : Char) (s1 s2 : Str) (h : sep ∉ s1) :
    splitChar sep (s1 ++ sep :: s2) = s1 :: splitChar sep s2 := by
  exact splitByAux_sep (fun c => c == sep) s1 sep s2
    (fun c hc => beq_eq_false_iff_ne.mpr (fun he => h (he ▸ hc))) (by simp) []

theorem isPrefixOf_self_app (p r : Str) : p.isPrefixOf (p ++ r) = true := by
  induction p with
  | nil => simp [List.isPrefixOf]
  | cons c cs ih => simp [List.isPrefixOf]

theorem drop_len_app (p r : Str) : (p ++ r).drop p.length = r := by
  induction p with
  | nil => rfl
  | cons c cs ih => simp

theorem afterKeyword_self (c : Char) (p rest : Str) :
    afterKeyword (c :: p) ((c :: p) ++ rest) = rest := by
  have hpre : (c :: p).isPrefixOf (c :: (p ++ rest)) = true := isPrefixOf_self_app (c :: p) rest
  rw [afterKeyword, List.cons_append, splitOnce, hpre]
  simp only [Option.getD_some]
  exact drop_len_app (c :: p) rest

theorem isPrefixOf_head_ne {c d : Char} (p s : Str) (h : c ≠ d) :
    (c :: p).isPrefixOf (d :: s) = false := by
  simp [List.isPrefixOf, h]

theorem isPrefixOf_cons_ex {c : Char} {p s : Str} (h : (c :: p).isPrefixOf s = true) :
    ∃ s', s = c :: s' ∧ p.isPrefixOf s' = true := by
  cases s with
  | nil => simp [List.isPrefixOf] at h
  | cons b bs =>
    simp only [List.isPrefixOf, Bool.and_eq_true, beq_iff_eq] at h
    exact ⟨bs, by rw [h.1], h.2⟩

theorem collectResults_isErr_of_mem {f : α → Except ε β} {l : α} :
    ∀ {ls : List α}, l ∈ ls → isErr (f l) = true → isErr (collectResults f ls) = true := by
  intro ls
  induction ls with
  | nil => intro h; exact absurd h (List.not_mem_nil l)
  | cons x xs ih =>
    intro hmem he
    rcases List.mem_cons.mp hmem with hx | hxs
    · subst hx
      rw [collectResults]
      cases hfe : f l with
      | error e => simp [isErr]
      | ok y => rw [hfe] at he; simp [isErr] at he
    · rw [collectResults]
      cases hfe : f x with
      | error e => simp [isErr]
      | ok y =>
        have := ih hxs he
        cases hc : collectResults f xs with
        | error e => simp [isErr]
        | ok ys => rw [hc] at this; simp [isErr] at this

theorem collectResults_find?_error {f : α → Except ε β} :
    ∀ (ls : List α) (l : α), ls.find? (fun x => isErr (f x)) = some l →
      ∃ e, f l = .error e ∧ collectResults f ls = .error e := by
  intro ls
  induction ls with
  | nil => intro l h; simp [List.find?] at h
  | cons x xs ih =>
    intro l h
    cases hp : isErr (f x) with
    | true =>
      rw [@List.find?_cons_of_pos _ (fun y => isErr (f y)) x xs hp] at h
      simp only [Option.some.injEq] at h
      subst h
      cases hfe : f x with
      | error e => exact ⟨e, rfl, by rw [collectResults, hfe]⟩
      | ok y => rw [hfe] at hp; simp [isErr] at hp
    | false =>
      rw [@List.find?_cons_of_neg _ (fun y => isErr (f y)) x xs (by simp [hp])] at h
      rcases ih l h with ⟨e, hfl, hcoll⟩
      refine ⟨e, hfl, ?_⟩
      cases hfe : f x with
      | error e' => rw [hfe] at hp; simp [isErr] at hp
      | ok y => rw [collectResults, hfe, hcoll]

theorem collectResults_good_error {f : α → Except ε β} :
    ∀ (good : List α), (∀ l ∈ good, isErr (f l) = false) →
      ∀ {s : α} {e : ε}, f s = .error e → ∀ (rest : List α),
        collectResults f (good ++ s :: rest) = .error e := by
  intro good
  induction good with
  | nil =>
    intro _ s e he rest
    rw [List.nil_append, collectResults, he]
  | cons x xs ih =>
    intro hg s e he rest
    have hx : isErr (f x) = false := hg x (List.mem_cons_self x xs)
    rw [List.cons_append, collectResults]
    cases hfe : f x with
    | error e' => rw [hfe] at hx; simp [isErr] at hx
    | ok y =>
      rw [ih (fun l hl => hg l (List.mem_cons_of_mem x hl)) he rest]

theorem from_items_go (items : List ConfigItem) :
    ∀ acc : Config, items.foldl Config.addItem acc =
      ⟨acc.nameservers ++ catMap itemNameservers items,
       acc.search_domains ++ catMap itemSearchDomains items,
       acc.sort_list ++ catMap itemSortList items,
       acc.options ++ catMap itemOptions items⟩ := by
  induction items with
  | nil => intro acc; simp [catMap]
  | cons x xs ih =>
    intro acc
    rw [List.foldl_cons, ih]
    cases x <;>
      simp [Config.addItem, catMap, itemNameservers, itemSearchDomains,
        itemSortList, itemOptions, List.append_assoc]

theorem from_items_spec (items : List ConfigItem) :
    Config.from_items items =
      ⟨catMap itemNameservers items, catMap itemSearchDomains items,
       catMap itemSortList items, catMap itemOptions items⟩ := by
  simpa using from_items_go items {}

theorem survives_false_iff (l : Str) :
    survives l = false ↔
      (l = [] ∨ (str "#").isPrefixOf l = true ∨ (str " ").isPrefixOf l = true) := by
  cases l with
  | nil => simp [survives, List.isEmpty]
  | cons c cs =>
    rw [survives]
    cases hp1 : (str "#").isPrefixOf (c :: cs) <;>
      cases hp2 : (str " ").isPrefixOf (c :: cs) <;>
        simp [List.isEmpty, hp1, hp2]

theorem filteredLines_insert_skip (pre post : List (Option Str)) (l : Str)
    (h : survives l = false) :
    filteredLines (pre ++ some l :: post) = filteredLines (pre ++ post) := by
  simp [filteredLines, decodeLines, List.map_append, List.filter_append, List.filter_cons, h]

theorem filteredLines_insert_keep (pre post : List (Option Str)) (l : Str)
    (h : survives l = true) :
    filteredLines (pre ++ some l :: post) =
      filteredLines pre ++ l :: filteredLines post := by
  simp [filteredLines, decodeLines, List.map_append, List.filter_append, List.filter_cons, h]

theorem mem_filteredLines_insert (pre post : List (Option Str)) (l : Str)
    (h : survives l = true) : l ∈ filteredLines (pre ++ some l :: post) := by
  rw [filteredLines_insert_keep pre post l h]
  exact List.mem_append_right _ (List.mem_cons_self l _)

theorem resolvParse_isErr_of_line {stream : List (Option Str)} {l : Str}
    (hmem : l ∈ filteredLines stream) (he : isErr (ConfigItem.from_str l) = true) :
    isErr (resolvParse stream) = true := by
  have h := collectResults_isErr_of_mem hmem he
  rw [resolvParse]
  cases hc : collectResults ConfigItem.from_str (filteredLines stream) with
  | error e => simp [isErr]
  | ok items => rw [hc] at h; simp [isErr] at h

theorem hostsParse_isErr_of_line {stream : List (Option Str)} {l : Str}
    (hmem : l ∈ filteredLines stream) (he : isErr (Host.from_str l) = true) :
    isErr (hostsParse stream) = true := by
  have h := collectResults_isErr_of_mem hmem he
  rw [hostsParse]
  exact h

theorem decodeLines_none (pre post : List (Option Str)) :
    decodeLines (pre ++ none :: post) = decodeLines (pre ++ some [] :: post) := by
  simp [decodeLines]

theorem survives_cons_of_head {c : Char} (s' : Str) (h1 : c ≠ '#') (h2 : c ≠ ' ') :
    survives (c :: s') = true := by
  rw [survives]
  have e1 : (str "#").isPrefixOf (c :: s') = false := by
    simp [str, List.isPrefixOf]
    exact fun h => h1 h.symm
  have e2 : (str " ").isPrefixOf (c :: s') = false := by
    simp [str, List.isPrefixOf]
    exact fun h => h2 h.symm
  simp [List.isEmpty, e1, e2]

/-! ### Claims -/

/-- C1: for every resolver-config input that parses successfully, each of the
four `Config` sequences is exactly the file-order concatenation of the items
produced by every matching directive line, with no deduplication and no
overwriting. -/
theorem claim_c1_config_accumulation (stream : List (Option Str)) (cfg : Config)
    (h : resolvParse stream = .ok cfg) :
    ∃ items : List ConfigItem,
      collectResults ConfigItem.from_str (filteredLines stream) = .ok items ∧
      cfg.nameservers = catMap itemNameservers items ∧
      cfg.search_domains = catMap itemSearchDomains items ∧
      cfg.sort_list = catMap itemSortList items ∧
      cfg.options = catMap itemOptions items := by
  rw [resolvParse] at h
  cases hc : collectResults ConfigItem.from_str (filteredLines stream) with
  | error e => rw [hc] at h; exact absurd h (by simp)
  | ok items =>
    rw [hc] at h
    simp only [Except.ok.injEq] at h
    subst h
    exact ⟨items, rfl, by rw [from_items_spec], by rw [from_items_spec],
      by rw [from_items_spec], by rw [from_items_spec]⟩

/-- Witness for C1: a `domain example.com` line followed by a `search foo bar`
line parses, and yields `search_domains = ["example.com", "foo", "bar"]`. -/
theorem claim_c1_config_accumulation_witness :
    (resolvParse [some (str "domain example.com"), some (str "search foo bar")] =
       .ok ⟨[], [str "example.com", str "foo", str "bar"], [], []⟩ ∧
     (⟨[], [str "example.com", str "foo", str "bar"], [], []⟩ : Config).search_domains =
       [str "example.com", str "foo", str "bar"]) ∧
    (∃ items : List ConfigItem,
      collectResults ConfigItem.from_str
          (filteredLines [some (str "domain example.com"), some (str "search foo bar")]) =
        .ok items ∧
      (⟨[], [str "example.com", str "foo", str "bar"], [], []⟩ : Config).nameservers =
        catMap itemNameservers items ∧
      (⟨[], [str "example.com", str "foo", str "bar"], [], []⟩ : Config).search_domains =
        catMap itemSearchDomains items ∧
      (⟨[], [str "example.com", str "foo", str "bar"], [], []⟩ : Config).sort_list =
        catMap itemSortList items ∧
      (⟨[], [str "example.com", str "foo", str "bar"], [], []⟩ : Config).options =
        catMap itemOptions items) :=
  ⟨⟨by decide, by decide⟩,
   claim_c1_config_accumulation
     [some (str "domain example.com"), some (str "search foo bar")]
     ⟨[], [str "example.com", str "foo", str "bar"], [], []⟩ (by decide)⟩

/-- C2: for either parser, if a surviving line is malformed the whole parse
returns an error and no partial result, and the error returned is the one for
the first malformed line in stream order. -/
theorem claim_c2_first_error (stream : List (Option Str)) (l1 l2 : Str) :
    ((filteredLines stream).find? (fun x => isErr (ConfigItem.from_str x)) = some l1 →
      ∃ e, ConfigItem.from_str l1 = .error e ∧ resolvParse stream = .error e) ∧
    ((filteredLines stream).find? (fun x => isErr (Host.from_str x)) = some l2 →
      ∃ e, Host.from_str l2 = .error e ∧ hostsParse stream = .error e) := by
  constructor
  · intro h
    rcases collectResults_find?_error _ l1 h with ⟨e, hfl, hcoll⟩
    exact ⟨e, hfl, by rw [resolvParse, hcoll]⟩
  · intro h
    rcases collectResults_find?_error _ l2 h with ⟨e, hfl, hcoll⟩
    exact ⟨e, hfl, by rw [hostsParse]; exact hcoll⟩

/-- Witness for C2: a stream whose second line is unknown to the resolver
parser and whose first line is not an address for the hosts parser. -/
theorem claim_c2_first_error_witness :
    (∃ e, ConfigItem.from_str (str "zzz") = .error e ∧
      resolvParse [some (str "nameserver 1.1.1.1"), some (str "zzz")] = .error e) ∧
    (∃ e, Host.from_str (str "nameserver 1.1.1.1") = .error e ∧
      hostsParse [some (str "nameserver 1.1.1.1"), some (str "zzz")] = .error e) :=
  ⟨(claim_c2_first_error [some (str "nameserver 1.1.1.1"), some (str "zzz")]
      (str "zzz") (str "nameserver 1.1.1.1")).1 (by decide),
   (claim_c2_first_error [some (str "nameserver 1.1.1.1"), some (str "zzz")]
      (str "zzz") (str "nameserver 1.1.1.1")).2 (by decide)⟩

/-- C3 counterexample: a line starting with a tab — an indentation character —
is NOT discarded: it survives the filter and makes both parsers fail, refuting
the claim that a line starting with any indentation character is discarded. -/
theorem claim_c3_line_filter_counterexample :
    (str "\tbad").headD ' ' = '\t' ∧
    survives (str "\tbad") = true ∧
    resolvParse [some (str "\tbad")] = .error (.UnknownOption (str "\tbad")) ∧
    hostsParse [some (str "\tbad")] = .error .IPAddrParseError :=
  ⟨by decide, by decide, by decide, by decide⟩

/-- C3 (amended): a line is discarded if and only if it is empty after
decoding, starts with `#`, or starts with a space character (U+0020)
specifically — other indentation characters such as tab do not cause
discarding; any discarded line contributes nothing to either parse and never
triggers an error, regardless of its remaining content. -/
theorem claim_c3_line_filter_amended (l : Str) (pre post : List (Option Str)) :
    (survives l = false ↔
      (l = [] ∨ (str "#").isPrefixOf l = true ∨ (str " ").isPrefixOf l = true)) ∧
    ((l = [] ∨ (str "#").isPrefixOf l = true ∨ (str " ").isPrefixOf l = true) →
      resolvParse (pre ++ some l :: post) = resolvParse (pre ++ post) ∧
      hostsParse (pre ++ some l :: post) = hostsParse (pre ++ post)) := by
  refine ⟨survives_false_iff l, fun h => ?_⟩
  have hs : survives l = false := (survives_false_iff l).mpr h
  constructor
  · rw [resolvParse, resolvParse, filteredLines_insert_skip pre post l hs]
  · rw [hostsParse, hostsParse, filteredLines_insert_skip pre post l hs]

/-- Witness for C3 (amended): a comment line whose content would be malformed
is skipped by both parsers. -/
theorem claim_c3_line_filter_amended_witness :
    resolvParse [some (str "nameserver 1.1.1.1"), some (str "# ???")] =
      resolvParse [some (str "nameserver 1.1.1.1")] ∧
    hostsParse [some (str "nameserver 1.1.1.1"), some (str "# ???")] =
      hostsParse [some (str "nameserver 1.1.1.1")] :=
  (claim_c3_line_filter_amended (str "# ???") [some (str "nameserver 1.1.1.1")] []).2
    (by decide)

/-- C4: a line whose decoding fails is treated as an empty line and hence
discarded by the line filter, rather than aborting the parse; a stream
containing one non-decodable line can still produce a successful result. -/
theorem claim_c4_decode_failure (pre post : List (Option Str)) :
    decodeLines (pre ++ none :: post) = decodeLines (pre ++ some [] :: post) ∧
    resolvParse (pre ++ none :: post) = resolvParse (pre ++ post) ∧
    hostsParse (pre ++ none :: post) = hostsParse (pre ++ post) ∧
    resolvParse [some (str "nameserver 1.2.3.4"), none] =
      .ok ⟨[.v4 1 2 3 4], [], [], []⟩ ∧
    hostsParse [none, some (str "127.0.0.1 localhost")] =
      .ok [⟨.v4 127 0 0 1, [str "localhost"]⟩] := by
  have hfl : filteredLines (pre ++ none :: post) = filteredLines (pre ++ post) := by
    have h1 : filteredLines (pre ++ none :: post) = filteredLines (pre ++ some [] :: post) := by
      rw [filteredLines, filteredLines, decodeLines_none]
    rw [h1, filteredLines_insert_skip pre post [] (by decide)]
  refine ⟨decodeLines_none pre post, ?_, ?_, by decide, by decide⟩
  · rw [resolvParse, resolvParse, hfl]
  · rw [hostsParse, hostsParse, hfl]

/-- C5: the options token sequence
`edns0 trust-ad timeout:5 attempts:2 ndots:3 debug` parses, preserving token
order, to `[EDNS0, TRUSTAD, Timeout 5, Attempts 2, NDots 3, DEBUG]`; and on
any `options` line, a token that fails to parse as a `ConfigOption` (an
unrecognized keyword, or a numeric payload of `ndots`/`timeout`/`attempts`
that does not parse as a non-negative integer) aborts the whole parse with an
error. -/
theorem claim_c5_options (s t : Str) (pre post : List (Option Str)) :
    (ConfigItem.from_str (str "options edns0 trust-ad timeout:5 attempts:2 ndots:3 debug") =
      .ok (.Options [.EDNS0, .TRUSTAD, .Timeout 5, .Attempts 2, .NDots 3, .DEBUG])) ∧
    ((str "options").isPrefixOf s = true →
      t ∈ splitWhitespace (trim (afterKeyword (str "options") s)) →
      isErr (ConfigOption.from_str t) = true →
      isErr (ConfigItem.from_str s) = true ∧
      isErr (resolvParse (pre ++ some s :: post)) = true) := by
  refine ⟨by decide, fun hpre hmem herr => ?_⟩
  rcases isPrefixOf_cons_ex (show ('o' :: str "ptions").isPrefixOf s = true from hpre)
    with ⟨s', rfl, -⟩
  have hcoll := collectResults_isErr_of_mem hmem herr
  have h1 : (str "nameserver").isPrefixOf ('o' :: s') = false :=
    @isPrefixOf_head_ne 'n' 'o' (str "ameserver") s' (by decide)
  have h2 : (str "domain").isPrefixOf ('o' :: s') = false :=
    @isPrefixOf_head_ne 'd' 'o' (str "omain") s' (by decide)
  have h3 : (str "search").isPrefixOf ('o' :: s') = false :=
    @isPrefixOf_head_ne 's' 'o' (str "earch") s' (by decide)
  have h4 : (str "sortlist").isPrefixOf ('o' :: s') = false :=
    @isPrefixOf_head_ne 's' 'o' (str "ortlist") s' (by decide)
  have hitem : isErr (ConfigItem.from_str ('o' :: s')) = true := by
    unfold ConfigItem.from_str
    simp only [h1, h2, h3, h4, hpre, Bool.false_eq_true, if_false, if_true]
    cases hc : collectResults ConfigOption.from_str
        (splitWhitespace (trim (afterKeyword (str "options") ('o' :: s')))) with
    | error e => rfl
    | ok os => rw [hc] at hcoll; simp [isErr] at hcoll
  have hs : survives ('o' :: s') = true := survives_cons_of_head s' (by decide) (by decide)
  exact ⟨hitem, resolvParse_isErr_of_line (mem_filteredLines_insert pre post _ hs) hitem⟩

/-- Witness for C5: an `options` line with an invalid `ndots` payload, and
one with an unrecognized keyword, each abort the whole parse. -/
theorem claim_c5_options_witness :
    (isErr (ConfigItem.from_str (str "options ndots:x")) = true ∧
     isErr (resolvParse [some (str "options ndots:x")]) = true) ∧
    (isErr (ConfigItem.from_str (str "options bogus")) = true ∧
     isErr (resolvParse [some (str "options bogus")]) = true) :=
  ⟨(claim_c5_options (str "options ndots:x") (str "ndots:x") [] []).2
      (by decide) (by decide) (by decide),
   (claim_c5_options (str "options bogus") (str "bogus") [] []).2
      (by decide) (by decide) (by decide)⟩

/-- C6: a `sortlist` token `addr/mask` with both parts valid IP addresses
parses to `IPPair addr (some mask)`; a token with no `/` and a valid address
parses to `IPPair addr none`; a token whose first (or present second) segment
is not a valid IP address makes the token fail and aborts the whole parse;
concretely `130.155.160.0/255.255.240.0` and `130.155.0.0` parse as stated. -/
theorem claim_c6_sortlist (s1 s2 s t : Str) (a m : IpAddr) (pre post : List (Option Str)) :
    (IPPair.from_str (str "130.155.160.0/255.255.240.0") =
      .ok ⟨.v4 130 155 160 0, some (.v4 255 255 240 0)⟩) ∧
    (IPPair.from_str (str "130.155.0.0") = .ok ⟨.v4 130 155 0 0, none⟩) ∧
    ('/' ∉ s1 → parseIpAddr s1 = some a → IPPair.from_str s1 = .ok ⟨a, none⟩) ∧
    ('/' ∉ s1 → '/' ∉ s2 → parseIpAddr s1 = some a → parseIpAddr s2 = some m →
      IPPair.from_str (s1 ++ '/' :: s2) = .ok ⟨a, some m⟩) ∧
    (parseIpAddr ((splitChar '/' s).headD []) = none →
      IPPair.from_str s = .error .IPAddrParseError) ∧
    (∀ m2, ((splitChar '/' s).drop 1).head? = some m2 → parseIpAddr m2 = none →
      IPPair.from_str s = .error .IPAddrParseError) ∧
    ((str "sortlist").isPrefixOf s = true →
      t ∈ splitWhitespace (trim (afterKeyword (str "sortlist") s)) →
      isErr (IPPair.from_str t) = true →
      isErr (resolvParse (pre ++ some s :: post)) = true) := by
  refine ⟨by decide, by decide, ?_, ?_, ?_, ?_, ?_⟩
  · intro hnos hparse
    simp only [IPPair.from_str]
    rw [splitChar_no_sep '/' s1 hnos]
    simp [hparse]
  · intro hnos1 hnos2 hp1 hp2
    simp only [IPPair.from_str]
    rw [splitChar_append '/' s1 s2 hnos1, splitChar_no_sep '/' s2 hnos2]
    simp [hp1, hp2]
  · intro hfail
    simp only [IPPair.from_str]
    rw [hfail]
  · intro m2 hm2 hm2fail
    simp only [IPPair.from_str]
    cases hfa : parseIpAddr ((splitChar '/' s).headD []) with
    | none => rfl
    | some a0 =>
      rw [hm2]
      simp [hm2fail]
  · intro hpre hmem herr
    rcases isPrefixOf_cons_ex (show ('s' :: str "ortlist").isPrefixOf s = true from hpre)
      with ⟨s', rfl, hrest⟩
    have hcoll := collectResults_isErr_of_mem hmem herr
    have h1 : (str "nameserver").isPrefixOf ('s' :: s') = false :=
      @isPrefixOf_head_ne 'n' 's' (str "ameserver") s' (by decide)
    have h2 : (str "domain").isPrefixOf ('s' :: s') = false :=
      @isPrefixOf_head_ne 'd' 's' (str "omain") s' (by decide)
    have h3 : (str "search").isPrefixOf ('s' :: s') = false := by
      cases hs3 : (str "search").isPrefixOf ('s' :: s') with
      | false => rfl
      | true =>
        exfalso
        rcases isPrefixOf_cons_ex (show ('s' :: str "earch").isPrefixOf ('s' :: s') = true
          from hs3) with ⟨s'', hss, hpre2⟩
        rcases isPrefixOf_cons_ex (show ('o' :: str "rtlist").isPrefixOf s' = true
          from hrest) with ⟨s3, hs3', -⟩
        rcases isPrefixOf_cons_ex (show ('e' :: str "arch").isPrefixOf s'' = true
          from hpre2) with ⟨s4, hs4, -⟩
        have : s' = s'' := by injection hss
        rw [this, hs4] at hs3'
        injection hs3' with hc _
        exact absurd hc (by decide)
    have hitem : isErr (ConfigItem.from_str ('s' :: s')) = true := by
      unfold ConfigItem.from_str
      simp only [h1, h2, h3, hpre, Bool.false_eq_true, if_false, if_true]
      cases hc : collectResults IPPair.from_str
          (splitWhitespace (trim (afterKeyword (str "sortlist") ('s' :: s')))) with
      | error e => rfl
      | ok ps => rw [hc] at hcoll; simp [isErr] at hcoll
    have hs : survives ('s' :: s') = true := survives_cons_of_head s' (by decide) (by decide)
    exact resolvParse_isErr_of_line (mem_filteredLines_insert pre post _ hs) hitem

/-- Witness for C6: concrete valid pair and single tokens, and a concrete
stream whose `sortlist` line holds an invalid token and therefore fails. -/
theorem claim_c6_sortlist_witness :
    IPPair.from_str (str "1.2.3.4") = .ok ⟨.v4 1 2 3 4, none⟩ ∧
    IPPair.from_str (str "1.2.3.4" ++ '/' :: str "5.6.7.8") =
      .ok ⟨.v4 1 2 3 4, some (.v4 5 6 7 8)⟩ ∧
    isErr (resolvParse [some (str "sortlist 1.2.3.4 999.0.0.1")]) = true :=
  ⟨(claim_c6_sortlist (str "1.2.3.4") [] [] [] (.v4 1 2 3 4) (.v4 1 2 3 4) [] []).2.2.1
      (by decide) (by decide),
   (claim_c6_sortlist (str "1.2.3.4") (str "5.6.7.8") [] [] (.v4 1 2 3 4) (.v4 5 6 7 8)
      [] []).2.2.2.1 (by decide) (by decide) (by decide) (by decide),
   (claim_c6_sortlist [] [] (str "sortlist 1.2.3.4 999.0.0.1") (str "999.0.0.1")
      (.v4 0 0 0 0) (.v4 0 0 0 0) [] []).2.2.2.2.2.2 (by decide) (by decide) (by decide)⟩

/-- C7: a surviving hosts-file line is split on whitespace; the first token
must parse as an IP address (otherwise the whole parse fails with an
address-parse error), and all remaining tokens become the `Host`'s names in
file order, with no deduplication and no minimum count: an address-only line
yields an empty name list. -/
theorem claim_c7_hosts_line (l tok : Str) (toks : List Str) (a : IpAddr)
    (pre post : List (Option Str)) :
    (splitWhitespace (trim l) = tok :: toks →
      ((parseIpAddr tok = none → Host.from_str l = .error .IPAddrParseError) ∧
       (parseIpAddr tok = some a → Host.from_str l = .ok ⟨a, toks⟩))) ∧
    (survives l = true → isErr (Host.from_str l) = true →
      isErr (hostsParse (pre ++ some l :: post)) = true) ∧
    (hostsParse [some (str "1.2.3.4")] = .ok [⟨.v4 1 2 3 4, []⟩]) := by
  refine ⟨fun hsplit => ⟨?_, ?_⟩,
    fun hs he => hostsParse_isErr_of_line (mem_filteredLines_insert pre post l hs) he,
    by decide⟩
  · intro hnone
    simp only [Host.from_str]
    rw [hsplit]
    simp [hnone]
  · intro hsome
    simp only [Host.from_str]
    rw [hsplit]
    simp [hsome]

/-- Witness for C7: a two-name line produces the names in order; a
non-address first token makes the whole hosts parse fail. -/
theorem claim_c7_hosts_line_witness :
    Host.from_str (str "9.9.9.9 a b") = .ok ⟨.v4 9 9 9 9, [str "a", str "b"]⟩ ∧
    isErr (hostsParse [some (str "bogus host")]) = true :=
  ⟨((claim_c7_hosts_line (str "9.9.9.9 a b") (str "9.9.9.9") [str "a", str "b"]
      (.v4 9 9 9 9) [] []).1 (by decide)).2 (by decide),
   (claim_c7_hosts_line (str "bogus host") [] [] (.v4 0 0 0 0) [] []).2.1
      (by decide) (by decide)⟩

/-- A colon immediately after a recognized option keyword `k` starts a new
split fragment, so classification sees `k` as the part before the first `:`
and the fragment after it as the payload. -/
theorem from_str_colon (k t : Str) (hk : ':' ∉ k) :
    ConfigOption.from_str (k ++ ':' :: t) =
      ConfigOption.classify k ((splitChar ':' t).headD []) := by
  simp only [ConfigOption.from_str]
  rw [splitChar_append ':' k t hk]
  simp only [List.headD_cons, List.drop_succ_cons, List.drop_zero]

/-- C8: a surviving resolver-config line whose leading keyword is none of
`nameserver`, `domain`, `search`, `sortlist`, or `options` makes the parse
fail with an `UnknownOption` error carrying the offending line's raw text
(shown here when reached: all surviving lines before it parse cleanly). -/
theorem claim_c8_unknown_keyword (s : Str) (pre post : List (Option Str)) :
    (str "nameserver").isPrefixOf s = false →
    (str "domain").isPrefixOf s = false →
    (str "search").isPrefixOf s = false →
    (str "sortlist").isPrefixOf s = false →
    (str "options").isPrefixOf s = false →
    (ConfigItem.from_str s = .error (.UnknownOption s) ∧
     (survives s = true →
      (∀ l ∈ filteredLines pre, isErr (ConfigItem.from_str l) = false) →
      resolvParse (pre ++ some s :: post) = .error (.UnknownOption s))) := by
  intro h1 h2 h3 h4 h5
  have hitem : ConfigItem.from_str s = .error (.UnknownOption s) := by
    unfold ConfigItem.from_str
    simp only [h1, h2, h3, h4, h5, Bool.false_eq_true, if_false]
  refine ⟨hitem, fun hs hgood => ?_⟩
  rw [resolvParse, filteredLines_insert_keep pre post s hs,
    collectResults_good_error (filteredLines pre) hgood hitem (filteredLines post)]

/-- Witness for C8: the line `zzz` after a clean `nameserver` line fails the
whole parse with `UnknownOption "zzz"`. -/
theorem claim_c8_unknown_keyword_witness :
    ConfigItem.from_str (str "zzz") = .error (.UnknownOption (str "zzz")) ∧
    resolvParse [some (str "nameserver 1.1.1.1"), some (str "zzz")] =
      .error (.UnknownOption (str "zzz")) :=
  have h := claim_c8_unknown_keyword (str "zzz") [some (str "nameserver 1.1.1.1")] []
    (by decide) (by decide) (by decide) (by decide) (by decide)
  ⟨h.1, h.2 (by decide) (by decide)⟩

/-- C9: for every recognized flag keyword `k` and every suffix `t`, the token
`k:t` parses to the flag variant for `k`, the text after the first `:` being
ignored, because classification looks only at the fragment before the first
`:`. -/
theorem claim_c9_flag_colon_suffix (t : Str) :
    ConfigOption.from_str (str "debug" ++ ':' :: t) = .ok .DEBUG ∧
    ConfigOption.from_str (str "rotate" ++ ':' :: t) = .ok .ROTATE ∧
    ConfigOption.from_str (str "no-aaaa" ++ ':' :: t) = .ok .NOAAAA ∧
    ConfigOption.from_str (str "no-check-names" ++ ':' :: t) = .ok .NOCHECKNAME ∧
    ConfigOption.from_str (str "inet6" ++ ':' :: t) = .ok .INET6 ∧
    ConfigOption.from_str (str "ip6-bytestring" ++ ':' :: t) = .ok .IP6BSTRING ∧
    ConfigOption.from_str (str "ip6-dotint" ++ ':' :: t) = .ok .IP6DOTINT ∧
    ConfigOption.from_str (str "no-ip6-dotint" ++ ':' :: t) = .ok .NOIP6DOTINT ∧
    ConfigOption.from_str (str "edns0" ++ ':' :: t) = .ok .EDNS0 ∧
    ConfigOption.from_str (str "single-request" ++ ':' :: t) = .ok .SNGLKUP ∧
    ConfigOption.from_str (str "single-request-reopen" ++ ':' :: t) = .ok .SNGLKUPREOP ∧
    ConfigOption.from_str (str "no-tld-query" ++ ':' :: t) = .ok .NOTLDQUERY ∧
    ConfigOption.from_str (str "use-vc" ++ ':' :: t) = .ok .USEVC ∧
    ConfigOption.from_str (str "no-reload" ++ ':' :: t) = .ok .NORELOAD ∧
    ConfigOption.from_str (str "trust-ad" ++ ':' :: t) = .ok .TRUSTAD ∧
    ConfigOption.from_str (str "debug" ++ ':' :: str "999") = .ok .DEBUG := by
  refine ⟨?_, ?_, ?_, ?_, ?_, ?_, ?_, ?_, ?_, ?_, ?_, ?_, ?_, ?_, ?_, by decide⟩ <;>
    rw [from_str_colon _ t (by decide)] <;> rfl

/-- C10: resolver-config directive keywords are matched as raw string
prefixes without requiring a separator: for every line that begins with a
directive keyword immediately followed by anything, the remainder after the
keyword, trimmed, is parsed as that directive's payload — for all five
keywords `nameserver`, `domain`, `search`, `sortlist`, `options`; in
particular `domainexample.com` parses to `Domain "example.com"` and
`searchfoo bar` to `SearchDomains ["foo", "bar"]`. -/
theorem claim_c10_raw_keyword_match (rest : Str) :
    (ConfigItem.from_str (str "nameserver" ++ rest) =
      (match parseIpAddr (trim rest) with
       | some a => .ok (.Nameserver a)
       | none => .error .IPAddrParseError)) ∧
    ConfigItem.from_str (str "domain" ++ rest) = .ok (.Domain (trim rest)) ∧
    ConfigItem.from_str (str "search" ++ rest) =
      .ok (.SearchDomains (splitWhitespace (trim rest))) ∧
    (ConfigItem.from_str (str "sortlist" ++ rest) =
      (match collectResults IPPair.from_str (splitWhitespace (trim rest)) with
       | .ok ps => .ok (.SortList ps)
       | .error e => .error e)) ∧
    (ConfigItem.from_str (str "options" ++ rest) =
      (match collectResults ConfigOption.from_str (splitWhitespace (trim rest)) with
       | .ok os => .ok (.Options os)
       | .error e => .error e)) ∧
    ConfigItem.from_str (str "domainexample.com") = .ok (.Domain (str "example.com")) ∧
    ConfigItem.from_str (str "searchfoo bar") =
      .ok (.SearchDomains [str "foo", str "bar"]) ∧
    ConfigItem.from_str (str "nameserver127.0.0.1") =
      .ok (.Nameserver (.v4 127 0 0 1)) ∧
    ConfigItem.from_str (str "sortlist1.2.3.4 5.6.7.8/9.9.9.9") =
      .ok (.SortList [⟨.v4 1 2 3 4, none⟩, ⟨.v4 5 6 7 8, some (.v4 9 9 9 9)⟩]) ∧
    ConfigItem.from_str (str "optionsedns0 ndots:2") = .ok (.Options [.EDNS0, .NDots 2]) := by
  refine ⟨?_, ?_, ?_, ?_, ?_, by decide, by decide, by decide, by decide, by decide⟩
  · have h1 : (str "nameserver").isPrefixOf (str "nameserver" ++ rest) = true :=
      isPrefixOf_self_app (str "nameserver") rest
    unfold ConfigItem.from_str
    simp only [h1, if_true]
    rw [show afterKeyword (str "nameserver") (str "nameserver" ++ rest) = rest from
      afterKeyword_self 'n' (str "ameserver") rest]
  · have h1 : (str "nameserver").isPrefixOf (str "domain" ++ rest) = false := rfl
    have h2 : (str "domain").isPrefixOf (str "domain" ++ rest) = true :=
      isPrefixOf_self_app (str "domain") rest
    unfold ConfigItem.from_str
    simp only [h1, h2, Bool.false_eq_true, if_false, if_true]
    rw [show afterKeyword (str "domain") (str "domain" ++ rest) = rest from
      afterKeyword_self 'd' (str "omain") rest]
  · have h1 : (str "nameserver").isPrefixOf (str "search" ++ rest) = false := rfl
    have h2 : (str "domain").isPrefixOf (str "search" ++ rest) = false := rfl
    have h3 : (str "search").isPrefixOf (str "search" ++ rest) = true :=
      isPrefixOf_self_app (str "search") rest
    unfold ConfigItem.from_str
    simp only [h1, h2, h3, Bool.false_eq_true, if_false, if_true]
    rw [show afterKeyword (str "search") (str "search" ++ rest) = rest from
      afterKeyword_self 's' (str "earch") rest]
  · have h1 : (str "nameserver").isPrefixOf (str "sortlist" ++ rest) = false := rfl
    have h2 : (str "domain").isPrefixOf (str "sortlist" ++ rest) = false := rfl
    have h3 : (str "search").isPrefixOf (str "sortlist" ++ rest) = false := rfl
    have h4 : (str "sortlist").isPrefixOf (str "sortlist" ++ rest) = true :=
      isPrefixOf_self_app (str "sortlist") rest
    unfold ConfigItem.from_str
    simp only [h1, h2, h3, h4, Bool.false_eq_true, if_false, if_true]
    rw [show afterKeyword (str "sortlist") (str "sortlist" ++ rest) = rest from
      afterKeyword_self 's' (str "ortlist") rest]
  · have h1 : (str "nameserver").isPrefixOf (str "options" ++ rest) = false := rfl
    have h2 : (str "domain").isPrefixOf (str "options" ++ rest) = false := rfl
    have h3 : (str "search").isPrefixOf (str "options" ++ rest) = false := rfl
    have h4 : (str "sortlist").isPrefixOf (str "options" ++ rest) = false := rfl
    have h5 : (str "options").isPrefixOf (str "options" ++ rest) = true :=
      isPrefixOf_self_app (str "options") rest
    unfold ConfigItem.from_str
    simp only [h1, h2, h3, h4, h5, Bool.false_eq_true, if_false, if_true]
    rw [show afterKeyword (str "options") (str "options" ++ rest) = rest from
      afterKeyword_self 'o' (str "ptions") rest]

end Unixism
